import Mathlib

/-!
Shallow embedding of the real-time audio phrase-segmentation pipeline implemented by
class `AudioCapture` in `audio_capture.py`: silence detection, resampling, the
producer queue, the segmenter loop (`_process_audio_chunks`) and the start/stop
lifecycle.  Audio samples are modelled as exact rationals (float32 values are
dyadic rationals; IEEE rounding is not modelled), wall-clock instants as rationals
in seconds.  External library behaviour (numpy, scipy, `queue.Queue`) is modelled
from the libraries' documented contracts, noted at each definition.
-/

set_option maxRecDepth 200000

namespace AudioCapture

/-- Truncation of a nonnegative rational to a natural number: Python's `int()`
applied to a float quotient or product.  The source only applies it to
nonnegative values, where truncation coincides with the floor. -/
def qfloorNat (q : ℚ) : ℕ := (q.num / (q.den : ℤ)).toNat

/-- Mean of the squared samples, `np.mean(audio_data ** 2)`.  Only used on
nonempty input (the caller handles the empty case explicitly). -/
def meanSq (xs : List ℚ) : ℚ := (xs.map (fun x => x * x)).sum / xs.length

/-- `AudioCapture._detect_silence` (audio_capture.py lines 331-359).  The source
computes `rms = sqrt(np.mean(audio ** 2))` and returns True when `rms < threshold`;
since `rms ≥ 0`, that comparison is exactly `0 < threshold ∧ meanSq < threshold ^ 2`,
the form used here to stay computable over ℚ.  Otherwise it returns whether the
fraction of samples with `|x| < threshold` exceeds 0.8.  For empty input `np.mean`
yields NaN and `0/0` yields NaN, every NaN comparison is False, so the source
returns False; that case is written out explicitly because ℚ has no NaN. -/
def detect_silence (xs : List ℚ) (threshold : ℚ) : Bool :=
  if xs.length = 0 then false
  else if 0 < threshold ∧ meanSq xs < threshold ^ 2 then true
  else decide ((8 : ℚ) / 10 < ((xs.countP fun x => decide (|x| < threshold)) : ℚ) / xs.length)

/-- Element `i` of `np.linspace(0, len - 1, num)` (audio_capture.py line 311). -/
def linspaceElem (len num i : ℕ) : ℚ :=
  if num = 1 then 0 else ((len : ℚ) - 1) * i / ((num : ℚ) - 1)

/-- `np.interp(t, np.arange(fp.length), fp)` at one query point: piecewise-linear
interpolation clamped at both ends (numpy semantics; all call sites guarantee
`fp` nonempty through the error path on empty input). -/
def npInterp (fp : List ℚ) (t : ℚ) : ℚ :=
  if t ≤ 0 then fp.headD 0
  else if ((fp.length : ℚ) - 1) ≤ t then fp.getLastD 0
  else
    fp.getD (qfloorNat t) 0 +
      (t - (qfloorNat t : ℚ)) * (fp.getD (qfloorNat t + 1) 0 - fp.getD (qfloorNat t) 0)

/-- Modelled from the external library contract: `scipy.signal.resample(x, num)`
returns exactly `num` output samples.  The band-limited sample values are computed
by FFT inside scipy, are external to this repository, and are not modelled; none
of the verified claims depends on them. -/
def scipySignalResample (_xs : List ℚ) (num : ℕ) : List ℚ := List.replicate num 0

/-- Exceptions that `_resample_audio` can raise (all library-level). -/
inductive ResampleErr where
  | zeroDivision
  | fftInvalidPoints
  | emptySamplePoints
deriving DecidableEq

/-- `AudioCapture._resample_audio` (audio_capture.py lines 298-313); `hasScipy`
selects the `HAS_SCIPY` branch.  `num_samples = int(len(audio) * to / from)` is
modelled as exact natural division (Python truncates the nonnegative float
quotient; with `from = 0` Python raises `ZeroDivisionError`).  On the scipy
branch, `rfft` of an empty array and `irfft` with `num = 0` both raise
`ValueError` for zero FFT data points; on the fallback branch, `np.interp`
raises `ValueError` when its sample-point array `np.arange(len(audio))` is
empty.  These library error paths are modelled as `Except.error`. -/
def resample_audio (hasScipy : Bool) (audio : List ℚ) (fromRate toRate : ℕ) :
    Except ResampleErr (List ℚ) :=
  if fromRate = toRate then .ok audio
  else if fromRate = 0 then .error .zeroDivision
  else
    let num := audio.length * toRate / fromRate
    if hasScipy then
      if audio.length = 0 then .error .fftInvalidPoints
      else if num = 0 then .error .fftInvalidPoints
      else .ok (scipySignalResample audio num)
    else
      if audio.length = 0 then .error .emptySamplePoints
      else .ok ((List.range num).map fun i => npInterp audio (linspaceElem audio.length num i))

/-- Python `queue.Queue` holding audio blocks.  `maxsize = 0` means the capacity
is infinite, exactly as in the CPython standard library. -/
structure PyQueue where
  maxsize : ℕ
  items : List (List ℚ)
deriving DecidableEq

/-- `self.audio_queue = queue.Queue()` (audio_capture.py line 55): constructed
with no `maxsize` argument, hence `maxsize = 0` (unbounded). -/
def audio_queue_init : PyQueue := ⟨0, []⟩

/-- `put_nowait` semantics from the CPython `queue` module: `queue.Full` is
raised iff `0 < maxsize` and the queue already holds at least `maxsize` items.
The second component reports whether the block was dropped; the callback catches
`queue.Full`, logs a warning and drops the block (audio_capture.py lines 325-329). -/
def put_nowait (q : PyQueue) (b : List ℚ) : PyQueue × Bool :=
  if 0 < q.maxsize ∧ q.maxsize ≤ q.items.length then (q, true)
  else ({ q with items := q.items ++ [b] }, false)

/-- `AudioCapture._audio_callback` (audio_capture.py lines 315-329) restricted to
its queue effect: when recording, a non-blocking enqueue of the mono float block;
when not recording, nothing. -/
def audio_callback (is_recording : Bool) (q : PyQueue) (indata : List ℚ) :
    PyQueue × Bool :=
  if is_recording then put_nowait q indata else (q, false)

/-- Feed a sequence of blocks through the recording callback. -/
def enqueue_all (blocks : List (List ℚ)) (q : PyQueue) : PyQueue :=
  blocks.foldl (fun acc b => (audio_callback true acc b).1) q

/-- The construction parameters of `AudioCapture` that the segmenter thread
reads (audio_capture.py lines 46-51 and 72). -/
structure Config where
  targetRate : ℕ
  deviceRate : ℕ
  silenceThreshold : ℚ
  minSilenceDuration : ℚ
  maxBufferDuration : ℚ

/-- `min_silence_duration_samples = int(target_sample_rate * min_silence_duration)`
(audio_capture.py line 367). -/
def minSilenceSamples (cfg : Config) : ℕ :=
  qfloorNat ((cfg.targetRate : ℚ) * cfg.minSilenceDuration)

/-- `max_buffer_duration_samples = int(target_sample_rate * max_buffer_duration)`
(audio_capture.py line 368). -/
def maxBufferSamples (cfg : Config) : ℕ :=
  qfloorNat ((cfg.targetRate : ℚ) * cfg.maxBufferDuration)

/-- `min_audio_duration = int(target_sample_rate * 1.5)` (audio_capture.py line 401). -/
def minAudioSamples (cfg : Config) : ℕ :=
  qfloorNat ((cfg.targetRate : ℚ) * (3 / 2))

/-- `overlap_samples = int(target_sample_rate * 0.3)` (audio_capture.py line 420). -/
def overlapSamples (cfg : Config) : ℕ :=
  qfloorNat ((cfg.targetRate : ℚ) * (3 / 10))

/-- State local to the `_process_audio_chunks` loop (audio_capture.py lines 364-366). -/
structure SegState where
  buffer : List ℚ
  silence : ℕ
  lastProcess : ℚ
deriving DecidableEq

/-- The chunk as appended to the rolling buffer: resampled to the target rate
exactly when the device rate differs (audio_capture.py lines 377-383). -/
def segChunk (cfg : Config) (hasScipy : Bool) (raw : List ℚ) :
    Except ResampleErr (List ℚ) :=
  if cfg.deviceRate ≠ cfg.targetRate then
    resample_audio hasScipy raw cfg.deviceRate cfg.targetRate
  else .ok raw

/-- Updated `silence_duration` after classifying the post-resample chunk
(audio_capture.py lines 387-394). -/
def silenceUpdate (cfg : Config) (s : SegState) (chunk : List ℚ) : ℕ :=
  if detect_silence chunk cfg.silenceThreshold then s.silence + chunk.length else 0

/-- Python slice `l[:-n]` for nonnegative `n`.  With `n = 0` it is `l[:0]`,
the empty list (`-0 == 0`); with `n > 0` it drops the last `n` elements. -/
def sliceDropLast (l : List ℚ) (n : ℕ) : List ℚ :=
  if n = 0 then [] else l.take (l.length - n)

/-- Python slice `l[-n:]`.  With `n = 0` it is `l[0:]`, the whole list; with
`n > 0` it keeps the last `n` elements. -/
def sliceLast (l : List ℚ) (n : ℕ) : List ℚ :=
  if n = 0 then l else l.drop (l.length - n)

/-- `should_process` (audio_capture.py lines 400-415): the three emission
triggers, evaluated on the state after the chunk was appended and the silence
run-length updated — (a) silence-triggered with the 1.5-second content floor,
(b) overflow-triggered, unconditional, (c) time-triggered with the same floor. -/
def shouldEmit (cfg : Config) (now : ℚ) (s : SegState) (chunk : List ℚ) : Prop :=
  (minSilenceSamples cfg ≤ silenceUpdate cfg s chunk ∧
      minAudioSamples cfg ≤ (s.buffer ++ chunk).length)
  ∨ maxBufferSamples cfg ≤ (s.buffer ++ chunk).length
  ∨ ((6 : ℚ) ≤ now - s.lastProcess ∧ minAudioSamples cfg ≤ (s.buffer ++ chunk).length)

instance (cfg : Config) (now : ℚ) (s : SegState) (chunk : List ℚ) :
    Decidable (shouldEmit cfg now s chunk) := by
  unfold shouldEmit
  infer_instance

/-- One iteration of `_process_audio_chunks` on a block arrival
(audio_capture.py lines 375-436).  `now` is the value `time.time()` reads during
the iteration (the two reads in one iteration are identified); `cbOk` says
whether the consumer callback returns normally; the consumer callback is assumed
installed.  The second component is the phrase passed to the callback, if any.
A resampling exception is caught by the loop's outer `except` and abandons the
iteration with the state unchanged.  A callback exception is caught and logged;
on this path it changes nothing further because the buffer trim, the counter
reset and the timestamp reset all precede the invocation (lines 420-430 before
lines 432-436), which is why `cbOk` is not consulted.  The trim is Python's
`buffer[:-overlap_samples]` / `buffer[-overlap_samples:]` (lines 421-423),
including the degenerate `overlap_samples = 0` case (`int(target_rate * 0.3)`
is 0 for target rates 1-3) where `buffer[:-0]` is empty and `buffer[-0:]` is
the whole buffer: a firing trigger then resets the counters but emits nothing
(`len(chunk_to_process) > 0` fails) and retains every sample. -/
def processBlock (cfg : Config) (hasScipy cbOk : Bool) (now : ℚ) (s : SegState)
    (raw : List ℚ) : SegState × Option (List ℚ) :=
  match segChunk cfg hasScipy raw with
  | .error _ => (s, none)
  | .ok chunk =>
    let buffer := s.buffer ++ chunk
    if shouldEmit cfg now s chunk ∧ 0 < buffer.length then
      let toProc := if overlapSamples cfg < buffer.length then
          sliceDropLast buffer (overlapSamples cfg) else buffer
      let newBuf := if overlapSamples cfg < buffer.length then
          sliceLast buffer (overlapSamples cfg) else []
      if 0 < toProc.length then (⟨newBuf, 0, now⟩, some toProc)
      else (⟨newBuf, 0, now⟩, none)
    else (⟨buffer, silenceUpdate cfg s chunk, s.lastProcess⟩, none)

/-- One iteration of `_process_audio_chunks` on a `queue.Empty` timeout
(audio_capture.py lines 438-451).  Here the callback is invoked before the
buffer is cleared and the counters are reset (line 445 before lines 446-448, all
inside the `try`), so a callback exception (`cbOk = false`) leaves the buffer,
the silence counter and the timestamp unchanged. -/
def processTimeout (cfg : Config) (cbOk : Bool) (now : ℚ) (s : SegState) :
    SegState × Option (List ℚ) :=
  if 0 < s.buffer.length ∧
      (minAudioSamples cfg ≤ s.buffer.length ∨ (6 : ℚ) ≤ now - s.lastProcess) then
    if cbOk then (⟨[], 0, now⟩, some s.buffer) else (s, some s.buffer)
  else (s, none)

/-- Run the block-arrival iteration over a timed block sequence, collecting every
phrase passed to the consumer callback. -/
def runBlocks (cfg : Config) (hasScipy : Bool) (blocks : List (ℚ × List ℚ))
    (s : SegState) : SegState × List (List ℚ) :=
  match blocks with
  | [] => (s, [])
  | (now, raw) :: rest =>
    let r := processBlock cfg hasScipy true now s raw
    let rr := runBlocks cfg hasScipy rest r.1
    (rr.1, r.2.toList ++ rr.2)

/-- Errors surfaced by construction and `start` (audio_capture.py lines 59-69 and
461-483): `ValueError` for an out-of-range explicit device index, `RuntimeError`
when no loopback device could be found, and a propagated hardware stream-open
exception (abstracted by a numeric code). -/
inductive CapErr where
  | invalidDevice
  | noLoopbackDevice
  | streamOpen (code : ℕ)
deriving DecidableEq

/-- Device resolution in `AudioCapture.__init__` (audio_capture.py lines 59-69).
`found` abstracts the result of `_find_loopback_device()`, platform-probing
convenience logic outside the pipeline. -/
def init_device (device : Option ℕ) (numDevices : ℕ) (found : Option ℕ) :
    Except CapErr ℕ :=
  match device with
  | some d => if d < numDevices then .ok d else .error .invalidDevice
  | none =>
    match found with
    | some d => .ok d
    | none => .error .noLoopbackDevice

/-- The object state of `AudioCapture` relevant to the lifecycle claims. -/
structure CapState where
  device : ℕ
  is_recording : Bool
  stream : Option Bool
  thread : Option Bool
  audio_queue : PyQueue
deriving DecidableEq

/-- Construction (audio_capture.py lines 53-69): a `CapState` exists only when
device resolution succeeded; the flags start false, no stream, no thread, and an
unbounded empty queue. -/
def initCapture (device : Option ℕ) (numDevices : ℕ) (found : Option ℕ) :
    Except CapErr CapState :=
  (init_device device numDevices found).map fun d => ⟨d, false, none, none, audio_queue_init⟩

/-- `AudioCapture.start` (audio_capture.py lines 455-483).  `openResult` is the
outcome of `sd.InputStream(...)` plus `stream.start()`: `none` on success,
`some code` when the hardware layer raises, which the source logs and re-raises.
When already recording, the source logs a warning and returns. -/
def start (s : CapState) (openResult : Option ℕ) : Except CapErr CapState :=
  if s.is_recording then .ok s
  else
    match openResult with
    | some code => .error (.streamOpen code)
    | none => .ok ⟨s.device, true, some true, some true, s.audio_queue⟩

/-- Observable side effects of `stop`, listed in execution order. -/
inductive StopEvent where
  | flagCleared
  | streamStopped
  | streamCloseErrorLogged
  | threadJoined
  | joinTimeoutWarned
  | queueDrained
deriving DecidableEq

/-- `AudioCapture.stop` (audio_capture.py lines 485-523), a total function: every
internal exception is caught.  When not recording it returns immediately (no
events).  Otherwise, in source order: the recording flag is cleared first; the
stream, if any, is stopped and closed (a raise there is caught, logged, and the
stream is still cleared in the `finally`); the segmenter thread, if alive, is
joined with a 3-second timeout and a warning is logged — without failing — when
it does not exit in time; finally the queue is drained until empty.
`closeRaises` and `joinExitsInTime` are the outcomes of those two external
interactions. -/
def stop (s : CapState) (closeRaises joinExitsInTime : Bool) :
    CapState × List StopEvent :=
  if s.is_recording = false then (s, [])
  else
    let evStream := match s.stream with
      | some _ => if closeRaises then [StopEvent.streamCloseErrorLogged]
                  else [StopEvent.streamStopped]
      | none => []
    let evJoin := match s.thread with
      | some true => if joinExitsInTime then [StopEvent.threadJoined]
                     else [StopEvent.joinTimeoutWarned]
      | _ => []
    let thread' : Option Bool := match s.thread with
      | some true => none
      | t => t
    (⟨s.device, false, none, thread', ⟨s.audio_queue.maxsize, []⟩⟩,
      StopEvent.flagCleared :: (evStream ++ evJoin ++ [StopEvent.queueDrained]))

/-- One period of a full-scale sine wave sampled at 16 points: 3-decimal
rational approximations of sin(2 pi k / 16), amplitude 1 (well above the
default threshold 0.015). -/
def sineBlock : List ℚ :=
  [0, 383 / 1000, 707 / 1000, 924 / 1000, 1, 924 / 1000, 707 / 1000, 383 / 1000,
   0, -383 / 1000, -707 / 1000, -924 / 1000, -1, -924 / 1000, -707 / 1000, -383 / 1000]

/-! ### Helper lemmas -/

theorem put_nowait_unbounded (items : List (List ℚ)) (b : List ℚ) :
    put_nowait ⟨0, items⟩ b = (⟨0, items ++ [b]⟩, false) := by
  simp [put_nowait]

theorem enqueue_all_unbounded_length (blocks : List (List ℚ)) (items : List (List ℚ)) :
    (enqueue_all blocks ⟨0, items⟩).items.length = items.length + blocks.length := by
  induction blocks generalizing items with
  | nil => simp [enqueue_all]
  | cons b rest ih =>
    have : enqueue_all (b :: rest) ⟨0, items⟩ = enqueue_all rest ⟨0, items ++ [b]⟩ := by
      simp [enqueue_all, audio_callback, put_nowait_unbounded]
    rw [this, ih]
    simp
    omega

theorem stop_not_recording (s : CapState) (cr je : Bool) (h : s.is_recording = false) :
    stop s cr je = (s, []) := by
  simp [stop, h]

theorem meanSq_nonneg (xs : List ℚ) : 0 ≤ meanSq xs := by
  apply div_nonneg
  · apply List.sum_nonneg
    intro x hx
    simp only [List.mem_map] at hx
    obtain ⟨y, _, rfl⟩ := hx
    exact mul_self_nonneg y
  · exact_mod_cast Nat.zero_le _

/-! ### C2: the producer queue -/

/-- C2 counterexample: the claim asserts the queue between the capture callback
and the segmenter has a capacity limit (its length never exceeds a fixed bound).
The queue is constructed as `queue.Queue()` with `maxsize = 0`, i.e. unbounded:
for every proposed bound `B`, enqueueing `B + 1` blocks through the callback
leaves `B + 1` items in the queue.  So no such bound exists. -/
theorem audio_queue_no_capacity_bound :
    ¬ ∃ B : ℕ, ∀ blocks : List (List ℚ),
        (enqueue_all blocks audio_queue_init).items.length ≤ B := by
  rintro ⟨B, h⟩
  have hB := h (List.replicate (B + 1) [])
  rw [show audio_queue_init = (⟨0, []⟩ : PyQueue) from rfl,
    enqueue_all_unbounded_length] at hB
  simp at hB

/-- C2 amended: the queue as constructed is unbounded (`maxsize = 0`); the
callback's enqueue is non-blocking and, on the as-constructed queue, never finds
it full and never drops — every block is appended (the `queue.Full` drop-and-log
handler in `_audio_callback` is unreachable); when not recording the callback
does not touch the queue. -/
theorem audio_queue_unbounded_never_drops :
    (∀ (items : List (List ℚ)) (b : List ℚ),
        put_nowait ⟨0, items⟩ b = (⟨0, items ++ [b]⟩, false)) ∧
    (∀ (q : PyQueue) (b : List ℚ), audio_callback false q b = (q, false)) ∧
    audio_queue_init.maxsize = 0 := by
  refine ⟨put_nowait_unbounded, fun q b => ?_, rfl⟩
  simp [audio_callback]

/-! ### C4: errors raised by start -/

/-- C4 counterexample: the claim locates the no-capturable-device failure in
`start()`.  In the source that failure is raised by `__init__` (a `RuntimeError`
at construction, so no object exists on which `start` could be called); `start`
itself never inspects device resolution and can only propagate a stream-open
error: no state and no stream outcome make `start` return the no-device error. -/
theorem start_never_raises_no_device :
    ¬ ∃ (s : CapState) (r : Option ℕ), start s r = .error CapErr.noLoopbackDevice := by
  rintro ⟨s, r, h⟩
  unfold start at h
  split at h
  · exact Except.noConfusion h
  · match r, h with
    | some code, h => exact CapErr.noConfusion (Except.error.inj h)
    | none, h => exact Except.noConfusion h

/-- C4 amended: the no-capturable-device failure is raised at construction
(device resolution in `__init__`), not by `start()`; `start()` is a no-op when
already recording, succeeds otherwise when the hardware stream opens, propagates
the hardware stream-open error otherwise, and every error it can return is a
propagated stream-open error. -/
theorem start_error_characterization :
    (∀ n : ℕ, init_device none n none = .error CapErr.noLoopbackDevice) ∧
    (∀ (s : CapState) (code : ℕ), s.is_recording = false →
        start s (some code) = .error (.streamOpen code)) ∧
    (∀ (s : CapState) (r : Option ℕ), s.is_recording = true → start s r = .ok s) ∧
    (∀ s : CapState, s.is_recording = false →
        start s none = .ok ⟨s.device, true, some true, some true, s.audio_queue⟩) ∧
    (∀ (s : CapState) (r : Option ℕ) (e : CapErr), start s r = .error e →
        ∃ code, e = CapErr.streamOpen code) := by
  refine ⟨fun n => rfl, ?_, ?_, ?_, ?_⟩
  · intro s code h
    simp [start, h]
  · intro s r h
    simp [start, h]
  · intro s h
    simp [start, h]
  · intro s r e h
    unfold start at h
    split at h
    · exact Except.noConfusion h
    · match r, h with
      | some code, h => exact ⟨code, (Except.error.inj h).symm⟩
      | none, h => exact Except.noConfusion h

/-- C4 witness: the amended characterization at concrete inputs. -/
theorem start_error_characterization_witness :
    init_device none 3 none = .error CapErr.noLoopbackDevice ∧
    start ⟨0, false, none, none, audio_queue_init⟩ (some 7) = .error (.streamOpen 7) ∧
    start ⟨0, true, some true, some true, audio_queue_init⟩ none =
      .ok ⟨0, true, some true, some true, audio_queue_init⟩ ∧
    start ⟨0, false, none, none, audio_queue_init⟩ none =
      .ok ⟨0, true, some true, some true, audio_queue_init⟩ :=
  ⟨start_error_characterization.1 3,
   start_error_characterization.2.1 ⟨0, false, none, none, audio_queue_init⟩ 7 rfl,
   start_error_characterization.2.2.1 ⟨0, true, some true, some true, audio_queue_init⟩ none rfl,
   start_error_characterization.2.2.2.1 ⟨0, false, none, none, audio_queue_init⟩ rfl⟩

/-! ### C8: resampling the empty block -/

/-- C8 counterexample: for empty input with distinct rates the claim says
`_resample_audio` never raises and returns empty on both paths.  In fact both
paths raise: the fallback path calls `np.interp` with an empty sample-point
array (ValueError), and the scipy path calls `rfft` on an empty array
(ValueError for zero FFT data points). -/
theorem resample_empty_raises :
    resample_audio false [] 44100 16000 = .error .emptySamplePoints ∧
    resample_audio true [] 44100 16000 = .error .fftInvalidPoints := ⟨rfl, rfl⟩

/-- C8 amended: for empty input, `_resample_audio` returns the empty sequence
(unchanged input) when the rates are equal, and raises on both paths when the
rates differ (division by zero when `from_rate = 0`, otherwise the library
errors above). -/
theorem resample_empty_behavior :
    (∀ (hS : Bool) (r : ℕ), resample_audio hS [] r r = .ok []) ∧
    (∀ f t : ℕ, f ≠ t →
        resample_audio false [] f t =
          .error (if f = 0 then .zeroDivision else .emptySamplePoints) ∧
        resample_audio true [] f t =
          .error (if f = 0 then .zeroDivision else .fftInvalidPoints)) := by
  constructor
  · intro hS r
    simp [resample_audio]
  · intro f t hft
    rcases Nat.eq_zero_or_pos f with hf | hf
    · subst hf
      simp [resample_audio, hft]
    · constructor <;> simp [resample_audio, hft, Nat.pos_iff_ne_zero.mp hf]

/-- C8 witness: the amended behavior at concrete rates. -/
theorem resample_empty_behavior_witness :
    resample_audio false [] 2 1 = .error .emptySamplePoints ∧
    resample_audio true [] 2 1 = .error .fftInvalidPoints ∧
    resample_audio false [] 5 5 = .ok [] :=
  ⟨(resample_empty_behavior.2 2 1 (by decide)).1,
   (resample_empty_behavior.2 2 1 (by decide)).2,
   resample_empty_behavior.1 false 5⟩

/-! ### C6: the silence detector -/

/-- C6 counterexample: the claim says `is_silent` returns true for all-zero
input of any length.  For the empty (trivially all-zero) block with the default
threshold 0.015, `np.mean` of an empty array is NaN, `NaN < threshold` is False,
`0 / 0` is NaN and `NaN > 0.8` is False, so the source returns False. -/
theorem detect_silence_empty_false : detect_silence [] (15 / 1000) = false := rfl

/-- C6 amended: for every nonempty block, `is_silent` is true iff the RMS energy
is below the threshold or the fraction of samples with absolute value below the
threshold exceeds 0.8 (logical OR); in particular every all-zero block of
positive length with a positive threshold is silent, and a full-scale sine
period (amplitude 1, far above the default threshold 0.015) is not; the empty
block is classified non-silent. -/
theorem detect_silence_characterization :
    (∀ (xs : List ℚ) (t : ℚ), xs ≠ [] →
      (detect_silence xs t = true ↔
        Real.sqrt ((meanSq xs : ℚ) : ℝ) < (t : ℝ) ∨
          (8 : ℚ) / 10 < ((xs.countP fun x => decide (|x| < t)) : ℚ) / xs.length)) ∧
    (∀ (n : ℕ) (t : ℚ), 0 < n → 0 < t →
      detect_silence (List.replicate n 0) t = true) ∧
    detect_silence sineBlock (15 / 1000) = false := by
  refine ⟨?_, ?_, by with_unfolding_all rfl⟩
  · intro xs t hne
    have hlen : xs.length ≠ 0 := fun h => hne (List.length_eq_zero.mp h)
    have hsqrt : Real.sqrt ((meanSq xs : ℚ) : ℝ) < (t : ℝ) ↔
        0 < t ∧ meanSq xs < t ^ 2 := by
      constructor
      · intro h
        have ht : (0 : ℝ) < (t : ℝ) :=
          lt_of_le_of_lt (Real.sqrt_nonneg _) h
        have ht' : (0 : ℚ) < t := by exact_mod_cast ht
        refine ⟨ht', ?_⟩
        have := (Real.sqrt_lt' ht).mp h
        have h2 : ((meanSq xs : ℚ) : ℝ) < ((t ^ 2 : ℚ) : ℝ) := by push_cast; exact this
        exact_mod_cast h2
      · rintro ⟨ht, hlt⟩
        have ht' : (0 : ℝ) < (t : ℝ) := by exact_mod_cast ht
        refine (Real.sqrt_lt' ht').mpr ?_
        have h2 : ((meanSq xs : ℚ) : ℝ) < ((t ^ 2 : ℚ) : ℝ) := by exact_mod_cast hlt
        calc ((meanSq xs : ℚ) : ℝ) < ((t ^ 2 : ℚ) : ℝ) := h2
          _ = (t : ℝ) ^ 2 := by push_cast; ring
    unfold detect_silence
    rw [if_neg hlen, hsqrt]
    by_cases hc : 0 < t ∧ meanSq xs < t ^ 2
    · simp [hc]
    · simp [hc]
  · intro n t hn ht
    unfold detect_silence
    have hm : meanSq (List.replicate n (0 : ℚ)) = 0 := by
      unfold meanSq
      rw [List.map_replicate]
      simp
    rw [if_neg (by simp; omega), if_pos ⟨ht, by rw [hm]; positivity⟩]

/-- C6 witness: the amended characterization at concrete inputs. -/
theorem detect_silence_characterization_witness :
    detect_silence (List.replicate 4 0) (15 / 1000) = true ∧
    (detect_silence [1] (15 / 1000) = true ↔
      Real.sqrt ((meanSq [1] : ℚ) : ℝ) < ((15 / 1000 : ℚ) : ℝ) ∨
        (8 : ℚ) / 10 <
          ((([1] : List ℚ).countP fun x => decide (|x| < 15 / 1000)) : ℚ) /
            (([1] : List ℚ).length)) :=
  ⟨detect_silence_characterization.2.1 4 (15 / 1000) (by decide)
      (by with_unfolding_all decide),
   detect_silence_characterization.1 [1] (15 / 1000) (List.cons_ne_nil 1 [])⟩

/-! ### C7: the resampled length -/

/-- C7 counterexample: the claim says the number of output samples is
`round(len * to / from)` on both paths.  The source truncates
(`int(len * to / from)`): for one input sample resampled from rate 3 to rate 2,
`int(2 / 3) = 0`, while `round(2 / 3) = 1`; the fallback path returns 0 samples
and the scipy path raises (`irfft` with 0 data points), so neither path returns
`round(len * to / from)` samples. -/
theorem resample_length_not_round :
    resample_audio false [1] 3 2 = .ok [] ∧
    resample_audio true [1] 3 2 = .error .fftInvalidPoints ∧
    round ((1 * 2 : ℚ) / 3) ≠ 0 := by
  refine ⟨rfl, rfl, by with_unfolding_all decide⟩

/-- C7 amended: when the rates are equal the input is returned unchanged; for a
nonempty input and distinct positive rates the fallback path returns exactly
`int(len * to / from)` (truncated, not rounded) samples, and the scipy path
returns exactly that many samples whenever the count is positive (it raises
when the count is 0). -/
theorem resample_length_floor :
    (∀ (hS : Bool) (xs : List ℚ) (r : ℕ), resample_audio hS xs r r = .ok xs) ∧
    (∀ (xs : List ℚ) (f t : ℕ), xs ≠ [] → f ≠ t → 0 < f →
      (resample_audio false xs f t).map List.length = .ok (xs.length * t / f) ∧
      (0 < xs.length * t / f →
        (resample_audio true xs f t).map List.length = .ok (xs.length * t / f))) := by
  constructor
  · intro hS xs r
    simp [resample_audio]
  · intro xs f t hne hft hf
    have hlen : xs.length ≠ 0 := fun h => hne (List.length_eq_zero.mp h)
    have hf0 : f ≠ 0 := Nat.pos_iff_ne_zero.mp hf
    constructor
    · simp [resample_audio, hft, hf0, hlen, Except.map]
    · intro hnum
      simp [resample_audio, hft, hf0, hlen, Nat.pos_iff_ne_zero.mp hnum, scipySignalResample,
        Except.map]

/-- C7 witness: both paths at a concrete input (2 samples, rate 4 to rate 2,
giving int(2 * 2 / 4) = 1 output sample), and the identity law at equal rates. -/
theorem resample_length_floor_witness :
    (resample_audio false [1, 2] 4 2).map List.length = .ok 1 ∧
    (resample_audio true [1, 2] 4 2).map List.length = .ok 1 ∧
    resample_audio true [1, 2] 7 7 = .ok [1, 2] :=
  ⟨(resample_length_floor.2 [1, 2] 4 2 (List.cons_ne_nil 1 [2]) (by decide) (by decide)).1,
   (resample_length_floor.2 [1, 2] 4 2 (List.cons_ne_nil 1 [2]) (by decide) (by decide)).2
      (by decide),
   resample_length_floor.1 true [1, 2] 7⟩

theorem sliceDropLast_zero (l : List ℚ) : sliceDropLast l 0 = [] := rfl

theorem sliceDropLast_length_le (l : List ℚ) (n : ℕ) :
    (sliceDropLast l n).length ≤ l.length := by
  unfold sliceDropLast
  split_ifs with h
  · simp
  · rw [List.length_take]
    omega

theorem sliceDropLast_length_pos (l : List ℚ) (n : ℕ) (h1 : 1 ≤ n) (h2 : n < l.length) :
    0 < (sliceDropLast l n).length := by
  unfold sliceDropLast
  rw [if_neg (by omega), List.length_take]
  omega

theorem sliceLast_length_le (l : List ℚ) (n : ℕ) (h : n ≠ 0) :
    (sliceLast l n).length ≤ n := by
  unfold sliceLast
  rw [if_neg h, List.length_drop]
  omega

theorem processBlock_err (cfg : Config) (hS cb : Bool) (now : ℚ) (s : SegState)
    (raw : List ℚ) (e : ResampleErr) (hres : segChunk cfg hS raw = .error e) :
    processBlock cfg hS cb now s raw = (s, none) := by
  unfold processBlock
  rw [hres]

theorem processBlock_ok (cfg : Config) (hS cb : Bool) (now : ℚ) (s : SegState)
    (raw chunk : List ℚ) (hres : segChunk cfg hS raw = .ok chunk) :
    processBlock cfg hS cb now s raw =
      if shouldEmit cfg now s chunk ∧ 0 < (s.buffer ++ chunk).length then
        (⟨if overlapSamples cfg < (s.buffer ++ chunk).length then
            sliceLast (s.buffer ++ chunk) (overlapSamples cfg)
          else [], 0, now⟩,
          if 0 < (if overlapSamples cfg < (s.buffer ++ chunk).length then
              sliceDropLast (s.buffer ++ chunk) (overlapSamples cfg)
            else s.buffer ++ chunk).length then
            some (if overlapSamples cfg < (s.buffer ++ chunk).length then
              sliceDropLast (s.buffer ++ chunk) (overlapSamples cfg)
            else s.buffer ++ chunk)
          else none)
      else (⟨s.buffer ++ chunk, silenceUpdate cfg s chunk, s.lastProcess⟩, none) := by
  unfold processBlock
  rw [hres]
  dsimp only
  by_cases hc : shouldEmit cfg now s chunk ∧ 0 < (s.buffer ++ chunk).length
  · rw [if_pos hc, if_pos hc]
    by_cases htp : 0 < (if overlapSamples cfg < (s.buffer ++ chunk).length then
        sliceDropLast (s.buffer ++ chunk) (overlapSamples cfg)
      else s.buffer ++ chunk).length
    · rw [if_pos htp, if_pos htp]
    · rw [if_neg htp, if_neg htp]
  · rw [if_neg hc, if_neg hc]

/-! ### C5: stop is idempotent, total, and orderly -/

/-- C5: `stop()` never raises (it is a total function whose external
interactions' failures, `closeRaises` and a join timeout, are absorbed): called
when not recording — before `start()` ever ran, or as the second of two calls in
a row — it is a no-op that leaves the recording flag false; called on a running
pipeline it clears the recording flag first (the head of the event trace,
before the stream is stopped and closed), joins a live segmenter thread with a
bounded timeout and only logs a warning when the join times out, leaves the
queue empty, and a second call afterwards is a no-op. -/
theorem stop_idempotent_and_total :
    ∀ (s : CapState) (cr je cr' je' : Bool),
      (s.is_recording = false → stop s cr je = (s, [])) ∧
      (s.is_recording = true →
        (stop s cr je).1.is_recording = false ∧
        (stop s cr je).1.audio_queue.items = [] ∧
        stop (stop s cr je).1 cr' je' = ((stop s cr je).1, []) ∧
        (stop s cr je).2.head? = some StopEvent.flagCleared ∧
        (s.thread = some true → je = false →
          StopEvent.joinTimeoutWarned ∈ (stop s cr je).2)) := by
  intro s cr je cr' je'
  constructor
  · intro h
    simp [stop, h]
  · intro h
    have hrun : ¬ s.is_recording = false := by simp [h]
    refine ⟨?_, ?_, ?_, ?_, ?_⟩
    · simp [stop, hrun]
    · simp [stop, hrun]
    · have h1 : (stop s cr je).1.is_recording = false := by simp [stop, hrun]
      exact stop_not_recording _ cr' je' h1
    · simp [stop, hrun]
    · intro hth hje
      simp [stop, hrun, hth, hje]

/-- C5 witness: the concrete no-op case (never started) and a concrete running
pipeline with a live thread whose join times out. -/
theorem stop_idempotent_and_total_witness :
    (stop ⟨0, false, none, none, audio_queue_init⟩ true true =
      (⟨0, false, none, none, audio_queue_init⟩, [])) ∧
    ((stop ⟨1, true, some true, some true, ⟨0, [[1]]⟩⟩ true false).1.is_recording = false ∧
      (stop ⟨1, true, some true, some true, ⟨0, [[1]]⟩⟩ true false).1.audio_queue.items = [] ∧
      stop (stop ⟨1, true, some true, some true, ⟨0, [[1]]⟩⟩ true false).1 false true =
        ((stop ⟨1, true, some true, some true, ⟨0, [[1]]⟩⟩ true false).1, []) ∧
      (stop ⟨1, true, some true, some true, ⟨0, [[1]]⟩⟩ true false).2.head? =
        some StopEvent.flagCleared ∧
      ((⟨1, true, some true, some true, ⟨0, [[1]]⟩⟩ : CapState).thread = some true →
        false = false →
        StopEvent.joinTimeoutWarned ∈
          (stop ⟨1, true, some true, some true, ⟨0, [[1]]⟩⟩ true false).2)) :=
  ⟨(stop_idempotent_and_total ⟨0, false, none, none, audio_queue_init⟩ true true false true).1
      rfl,
   (stop_idempotent_and_total ⟨1, true, some true, some true, ⟨0, [[1]]⟩⟩ true false false
      true).2 rfl⟩

/-! ### C9: silence is classified on the post-resample chunk -/

/-- C9: in the block-arrival iteration, when the device rate differs from the
target rate the consumed block is resampled first and `_detect_silence` is
applied to the resample output: when no trigger fires, the new state is exactly
the buffer extended by the resampled chunk together with the silence run-length
updated by `detect_silence chunk` and incremented by the resampled (target-rate)
chunk length; on the trigger path the run-length is reset to 0 (whether or not
a phrase actually went out).  So the counter accumulates target-rate sample
counts in every code path. -/
theorem silence_counted_post_resample :
    ∀ (cfg : Config) (hS cb : Bool) (now : ℚ) (s : SegState) (raw chunk : List ℚ),
      cfg.deviceRate ≠ cfg.targetRate →
      resample_audio hS raw cfg.deviceRate cfg.targetRate = .ok chunk →
      ((¬ (shouldEmit cfg now s chunk ∧ 0 < (s.buffer ++ chunk).length) →
          (processBlock cfg hS cb now s raw).1 =
            ⟨s.buffer ++ chunk, silenceUpdate cfg s chunk, s.lastProcess⟩) ∧
        (shouldEmit cfg now s chunk ∧ 0 < (s.buffer ++ chunk).length →
          (processBlock cfg hS cb now s raw).1.silence = 0)) := by
  intro cfg hS cb now s raw chunk hneq hres
  have hsc : segChunk cfg hS raw = .ok chunk := by
    simp [segChunk, hneq, hres]
  rw [processBlock_ok cfg hS cb now s raw chunk hsc]
  constructor
  · intro hnc
    rw [if_neg hnc]
  · intro hc
    rw [if_pos hc]

/-- C9 witness: device rate 4, target rate 2; the 4-sample block resamples (on
the linear-interpolation path) to the 2-sample chunk `[1, 1]`, which is
classified non-silent, and the theorem ties the new state to that post-resample
chunk on both the quiet and the trigger path. -/
theorem silence_counted_post_resample_witness :
    ((¬ (shouldEmit ⟨2, 4, 15 / 1000, 1, 10⟩ 0 ⟨[], 0, 0⟩ [1, 1] ∧
          0 < (([] : List ℚ) ++ [1, 1]).length) →
        (processBlock ⟨2, 4, 15 / 1000, 1, 10⟩ false true 0 ⟨[], 0, 0⟩ [1, 1, 1, 1]).1 =
          ⟨([] : List ℚ) ++ [1, 1],
            silenceUpdate ⟨2, 4, 15 / 1000, 1, 10⟩ ⟨[], 0, 0⟩ [1, 1], (0 : ℚ)⟩) ∧
      (shouldEmit ⟨2, 4, 15 / 1000, 1, 10⟩ 0 ⟨[], 0, 0⟩ [1, 1] ∧
          0 < (([] : List ℚ) ++ [1, 1]).length →
        (processBlock ⟨2, 4, 15 / 1000, 1, 10⟩ false true 0 ⟨[], 0, 0⟩
          [1, 1, 1, 1]).1.silence = 0)) :=
  silence_counted_post_resample ⟨2, 4, 15 / 1000, 1, 10⟩ false true 0 ⟨[], 0, 0⟩
    [1, 1, 1, 1] [1, 1] (by decide) (by with_unfolding_all rfl)

/-! ### C10: emission atomicity under callback failure -/

/-- C10: the two emission paths differ in atomicity when the consumer callback
raises.  On a block-arrival emission the buffer trim to the overlap and the
counter/timestamp resets precede the callback, so the post-state does not
depend on the callback outcome at all (first conjunct) and after any emission
the silence counter is 0, the timestamp is `now` and at most the overlap
remains buffered even when the callback raised (second conjunct): the emitted
samples are gone.  On a queue-timeout emission the callback runs first: if it
raises, buffer, counter and timestamp are left unchanged and the same audio
remains eligible (third conjunct); if it returns, the state is cleared (fourth
conjunct).  Both paths catch the exception (the model is total), and the loop
continues. -/
theorem emission_atomicity :
    ∀ (cfg : Config) (hS : Bool) (now : ℚ) (s : SegState) (raw : List ℚ),
      processBlock cfg hS false now s raw = processBlock cfg hS true now s raw ∧
      (∀ p, (processBlock cfg hS false now s raw).2 = some p →
        (processBlock cfg hS false now s raw).1.silence = 0 ∧
        (processBlock cfg hS false now s raw).1.lastProcess = now ∧
        (processBlock cfg hS false now s raw).1.buffer.length ≤ overlapSamples cfg) ∧
      (∀ p, (processTimeout cfg false now s).2 = some p →
        (processTimeout cfg false now s).1 = s ∧ p = s.buffer) ∧
      (∀ p, (processTimeout cfg true now s).2 = some p →
        (processTimeout cfg true now s).1 = ⟨[], 0, now⟩ ∧ p = s.buffer) := by
  intro cfg hS now s raw
  refine ⟨rfl, ?_, ?_, ?_⟩
  · intro p hp
    cases hsc : segChunk cfg hS raw with
    | error e =>
      rw [processBlock_err cfg hS false now s raw e hsc] at hp
      simp at hp
    | ok chunk =>
      rw [processBlock_ok cfg hS false now s raw chunk hsc] at hp ⊢
      by_cases hc : shouldEmit cfg now s chunk ∧ 0 < (s.buffer ++ chunk).length
      · rw [if_pos hc] at hp ⊢
        by_cases htp : 0 < (if overlapSamples cfg < (s.buffer ++ chunk).length then
            sliceDropLast (s.buffer ++ chunk) (overlapSamples cfg)
          else s.buffer ++ chunk).length
        · refine ⟨rfl, rfl, ?_⟩
          by_cases hov : overlapSamples cfg < (s.buffer ++ chunk).length
          · rw [if_pos hov]
            by_cases hz : overlapSamples cfg = 0
            · rw [if_pos hov, hz, sliceDropLast_zero] at htp
              simp at htp
            · exact sliceLast_length_le _ _ hz
          · rw [if_neg hov]
            simp
        · rw [if_neg htp] at hp
          simp at hp
      · rw [if_neg hc] at hp
        simp at hp
  · intro p hp
    unfold processTimeout at hp ⊢
    by_cases ht : 0 < s.buffer.length ∧
        (minAudioSamples cfg ≤ s.buffer.length ∨ (6 : ℚ) ≤ now - s.lastProcess)
    · rw [if_pos ht] at hp ⊢
      rw [if_neg Bool.false_ne_true] at hp ⊢
      exact ⟨rfl, (Option.some.inj hp).symm⟩
    · rw [if_neg ht] at hp
      simp at hp
  · intro p hp
    unfold processTimeout at hp ⊢
    by_cases ht : 0 < s.buffer.length ∧
        (minAudioSamples cfg ≤ s.buffer.length ∨ (6 : ℚ) ≤ now - s.lastProcess)
    · rw [if_pos ht] at hp ⊢
      rw [if_pos rfl] at hp ⊢
      exact ⟨rfl, (Option.some.inj hp).symm⟩
    · rw [if_neg ht] at hp
      simp at hp

/-- C10 witness: a concrete block-arrival emission at the default-shaped rate-16
configuration (a 160-sample loud block reaches the 160-sample cap; the first
156 samples are emitted, the 4-sample overlap stays) with the callback raising,
and a concrete timeout emission with a 24-sample buffer meeting the 1.5-second
floor, on both callback outcomes. -/
theorem emission_atomicity_witness :
    ((processBlock ⟨16, 16, 15 / 1000, 1, 10⟩ false false 0 ⟨[], 0, 0⟩
        (List.replicate 160 1)).1.silence = 0 ∧
      (processBlock ⟨16, 16, 15 / 1000, 1, 10⟩ false false 0 ⟨[], 0, 0⟩
        (List.replicate 160 1)).1.lastProcess = 0 ∧
      (processBlock ⟨16, 16, 15 / 1000, 1, 10⟩ false false 0 ⟨[], 0, 0⟩
        (List.replicate 160 1)).1.buffer.length ≤
          overlapSamples ⟨16, 16, 15 / 1000, 1, 10⟩) ∧
    ((processTimeout ⟨16, 16, 15 / 1000, 1, 10⟩ false 0 ⟨List.replicate 24 1, 0, 0⟩).1 =
        ⟨List.replicate 24 1, 0, 0⟩ ∧
      List.replicate 24 (1 : ℚ) = List.replicate 24 1) ∧
    ((processTimeout ⟨16, 16, 15 / 1000, 1, 10⟩ true 0 ⟨List.replicate 24 1, 0, 0⟩).1 =
        ⟨[], 0, 0⟩ ∧
      List.replicate 24 (1 : ℚ) = List.replicate 24 1) :=
  ⟨(emission_atomicity ⟨16, 16, 15 / 1000, 1, 10⟩ false 0 ⟨[], 0, 0⟩
      (List.replicate 160 1)).2.1 (List.replicate 156 1) (by with_unfolding_all decide),
   (emission_atomicity ⟨16, 16, 15 / 1000, 1, 10⟩ false 0
      ⟨List.replicate 24 1, 0, 0⟩ []).2.2.1 (List.replicate 24 1)
      (by with_unfolding_all decide),
   (emission_atomicity ⟨16, 16, 15 / 1000, 1, 10⟩ false 0
      ⟨List.replicate 24 1, 0, 0⟩ []).2.2.2 (List.replicate 24 1)
      (by with_unfolding_all decide)⟩

/-! ### C1: the emission decision -/

/-- C1 counterexample: the claim says a phrase is emitted exactly when one of
the three conditions holds, for every configuration.  At target rate 2 the
overlap is `int(2 * 0.3) = 0` and the cap is 20 samples; a 20-sample loud
block reaches the cap so the overflow trigger fires, yet `buffer[:-0]` is
empty, `len(chunk_to_process) > 0` fails, the callback is never invoked, and
the whole buffer is retained (as `buffer[-0:]`) while the counters are still
reset. -/
theorem trigger_without_emission :
    shouldEmit ⟨2, 2, 15 / 1000, 1, 10⟩ 0 ⟨[], 0, 0⟩ (List.replicate 20 1) ∧
    overlapSamples ⟨2, 2, 15 / 1000, 1, 10⟩ = 0 ∧
    (processBlock ⟨2, 2, 15 / 1000, 1, 10⟩ false true 0 ⟨[], 0, 0⟩
      (List.replicate 20 1)).2 = none ∧
    (processBlock ⟨2, 2, 15 / 1000, 1, 10⟩ false true 0 ⟨[], 0, 0⟩
      (List.replicate 20 1)).1.buffer = List.replicate 20 1 := by
  refine ⟨?_, ?_, ?_, ?_⟩ <;> with_unfolding_all decide

/-- C1 amended: provided `overlap_samples = int(0.3 * target_rate)` is at least
1 — true of every target rate ≥ 4, in particular the default 16000 — a phrase
is emitted (passed to the consumer callback) exactly when `should_process`
holds, i.e. when one of the three trigger conditions holds: (a) silence
run-length at least `int(min_silence_duration * target_rate)` and buffer at
least the `int(1.5 * target_rate)` floor, (b) buffer at least
`int(max_buffer_duration * target_rate)` unconditionally, (c) at least 6.0
seconds since the last emission and the same content floor.  (When the overlap
is 0, a firing trigger resets the counters but emits nothing, since
`buffer[:-0]` is empty.)  The source evaluates the three conditions in an
if/elif/elif cascade whose only effect is which one fires first (they jointly
set the same flag), so emission is their disjunction.  The floor hypotheses
hold whenever `target_rate ≥ 1`. -/
theorem emission_iff_triggers :
    ∀ (cfg : Config) (hS cb : Bool) (now : ℚ) (s : SegState) (raw chunk : List ℚ),
      1 ≤ overlapSamples cfg →
      1 ≤ minAudioSamples cfg → 1 ≤ maxBufferSamples cfg →
      segChunk cfg hS raw = .ok chunk →
      ((processBlock cfg hS cb now s raw).2.isSome = true ↔
        shouldEmit cfg now s chunk) := by
  intro cfg hS cb now s raw chunk hov1 hmin hmax hsc
  rw [processBlock_ok cfg hS cb now s raw chunk hsc]
  by_cases hc : shouldEmit cfg now s chunk ∧ 0 < (s.buffer ++ chunk).length
  · rw [if_pos hc]
    have htp : 0 < (if overlapSamples cfg < (s.buffer ++ chunk).length then
        sliceDropLast (s.buffer ++ chunk) (overlapSamples cfg)
      else s.buffer ++ chunk).length := by
      by_cases hov : overlapSamples cfg < (s.buffer ++ chunk).length
      · rw [if_pos hov]
        exact sliceDropLast_length_pos _ _ hov1 hov
      · rw [if_neg hov]
        exact hc.2
    rw [if_pos htp]
    simp [hc.1]
  · rw [if_neg hc]
    simp only [Option.isSome_none, Bool.false_eq_true, false_iff]
    intro hse
    apply hc
    refine ⟨hse, ?_⟩
    have hlen : minAudioSamples cfg ≤ (s.buffer ++ chunk).length ∨
        maxBufferSamples cfg ≤ (s.buffer ++ chunk).length := by
      rcases hse with ⟨-, h⟩ | h | ⟨-, h⟩
      · exact Or.inl h
      · exact Or.inr h
      · exact Or.inl h
    rcases hlen with h | h <;> omega

/-- C1 witness: the default-shaped configuration scaled to rate 16 (overlap 4
and all derived counts positive), a silent-free 24-sample block on an empty
buffer: no trigger holds and no phrase is emitted, matching the equivalence. -/
theorem emission_iff_triggers_witness :
    1 ≤ overlapSamples ⟨16, 16, 15 / 1000, 1, 10⟩ ∧
    1 ≤ minAudioSamples ⟨16, 16, 15 / 1000, 1, 10⟩ ∧
    1 ≤ maxBufferSamples ⟨16, 16, 15 / 1000, 1, 10⟩ ∧
    ((processBlock ⟨16, 16, 15 / 1000, 1, 10⟩ false true 0 ⟨[], 0, 0⟩
        (List.replicate 24 1)).2.isSome = true ↔
      shouldEmit ⟨16, 16, 15 / 1000, 1, 10⟩ 0 ⟨[], 0, 0⟩ (List.replicate 24 1)) :=
  ⟨by with_unfolding_all decide, by with_unfolding_all decide,
   by with_unfolding_all decide,
   emission_iff_triggers ⟨16, 16, 15 / 1000, 1, 10⟩ false true 0 ⟨[], 0, 0⟩
     (List.replicate 24 1) (List.replicate 24 1) (by with_unfolding_all decide)
     (by with_unfolding_all decide) (by with_unfolding_all decide) rfl⟩

/-! ### C3: buffer and phrase size bounds -/

/-- C3 counterexample: with target rate 16 (so `max_buffer_duration 10` caps the
buffer at 160 samples and the overlap is 4), feeding two non-silent blocks of
159 and 8 samples — none of them silent, time standing still — produces a
single emitted phrase of 163 samples, which exceeds the claimed bound of
`max_buffer_duration * target_rate = 160`: the overflow check runs only after
the whole block was appended, so a phrase can exceed the cap by up to one block
minus the overlap. -/
theorem phrase_exceeding_max_buffer :
    ((runBlocks ⟨16, 16, 15 / 1000, 1, 10⟩ false
        [(0, List.replicate 159 1), (0, List.replicate 8 1)] ⟨[], 0, 0⟩).2.map
          List.length = [163]) ∧
    maxBufferSamples ⟨16, 16, 15 / 1000, 1, 10⟩ = 160 ∧
    (([(0, List.replicate 159 (1 : ℚ)), (0, List.replicate 8 1)] :
        List (ℚ × List ℚ)).all fun b => !detect_silence b.2 (15 / 1000)) = true ∧
    160 < 163 := by
  refine ⟨?_, ?_, ?_, ?_⟩ <;> with_unfolding_all decide

/-- C3 amended: provided `overlap_samples = int(0.3 * target_rate)` is at least
1 and below the cap — both true of every real configuration, e.g. 4800 against
160000 at the defaults — the rolling buffer is strictly below
`max_buffer_duration * target_rate` samples at every iteration boundary (the
stated invariant, preserved by both the block-arrival and the timeout
iteration), and consequently every emitted phrase is bounded by that cap plus
the post-resample length of the block that triggered it (strictly below
`cap + block`); phrases emitted on the timeout path stay strictly below the
cap itself.  (When the overlap is 0, `buffer[-0:]` retains the whole buffer on
the trigger path and the invariant can fail.) -/
theorem buffer_and_phrase_bounds :
    ∀ (cfg : Config) (hS cb : Bool) (now : ℚ) (s : SegState) (raw chunk : List ℚ),
      1 ≤ overlapSamples cfg →
      overlapSamples cfg < maxBufferSamples cfg →
      s.buffer.length < maxBufferSamples cfg →
      ((processBlock cfg hS cb now s raw).1.buffer.length < maxBufferSamples cfg ∧
        (∀ p, segChunk cfg hS raw = .ok chunk →
          (processBlock cfg hS cb now s raw).2 = some p →
          p.length < maxBufferSamples cfg + chunk.length) ∧
        (processTimeout cfg cb now s).1.buffer.length < maxBufferSamples cfg ∧
        (∀ p, (processTimeout cfg cb now s).2 = some p →
          p.length < maxBufferSamples cfg)) := by
  intro cfg hS cb now s raw chunk hov1 hov hinv
  have hcap : 0 < maxBufferSamples cfg := by omega
  refine ⟨?_, ?_, ?_, ?_⟩
  · cases hsc : segChunk cfg hS raw with
    | error e =>
      rw [processBlock_err cfg hS cb now s raw e hsc]
      exact hinv
    | ok c =>
      rw [processBlock_ok cfg hS cb now s raw c hsc]
      by_cases hc : shouldEmit cfg now s c ∧ 0 < (s.buffer ++ c).length
      · rw [if_pos hc]
        dsimp only
        by_cases ho : overlapSamples cfg < (s.buffer ++ c).length
        · rw [if_pos ho]
          have := sliceLast_length_le (s.buffer ++ c) (overlapSamples cfg) (by omega)
          omega
        · rw [if_neg ho]
          simpa using hcap
      · rw [if_neg hc]
        dsimp only
        by_cases hz : 0 < (s.buffer ++ c).length
        · have hse : ¬ shouldEmit cfg now s c := fun h => hc ⟨h, hz⟩
          have : ¬ maxBufferSamples cfg ≤ (s.buffer ++ c).length := fun h =>
            hse (Or.inr (Or.inl h))
          omega
        · simp only [Nat.not_lt, Nat.le_zero] at hz
          simpa [hz] using hcap
  · intro p hsc hp
    rw [processBlock_ok cfg hS cb now s raw chunk hsc] at hp
    by_cases hc : shouldEmit cfg now s chunk ∧ 0 < (s.buffer ++ chunk).length
    · rw [if_pos hc] at hp
      by_cases htp : 0 < (if overlapSamples cfg < (s.buffer ++ chunk).length then
          sliceDropLast (s.buffer ++ chunk) (overlapSamples cfg)
        else s.buffer ++ chunk).length
      · rw [if_pos htp] at hp
        have hlen : p.length ≤ (s.buffer ++ chunk).length := by
          cases Option.some.inj hp
          by_cases ho : overlapSamples cfg < (s.buffer ++ chunk).length
          · rw [if_pos ho]
            exact sliceDropLast_length_le _ _
          · rw [if_neg ho]
        rw [List.length_append] at hlen
        omega
      · rw [if_neg htp] at hp
        simp at hp
    · rw [if_neg hc] at hp
      simp at hp
  · unfold processTimeout
    by_cases ht : 0 < s.buffer.length ∧
        (minAudioSamples cfg ≤ s.buffer.length ∨ (6 : ℚ) ≤ now - s.lastProcess)
    · rw [if_pos ht]
      cases cb
      · rw [if_neg Bool.false_ne_true]
        exact hinv
      · rw [if_pos rfl]
        exact hcap
    · rw [if_neg ht]
      exact hinv
  · intro p hp
    unfold processTimeout at hp
    by_cases ht : 0 < s.buffer.length ∧
        (minAudioSamples cfg ≤ s.buffer.length ∨ (6 : ℚ) ≤ now - s.lastProcess)
    · rw [if_pos ht] at hp
      have hps : p = s.buffer := by
        cases cb
        · rw [if_neg Bool.false_ne_true] at hp
          exact (Option.some.inj hp).symm
        · rw [if_pos rfl] at hp
          exact (Option.some.inj hp).symm
      rw [hps]
      exact hinv
    · rw [if_neg ht] at hp
      simp at hp

/-- C3 witness: the amended bounds at a concrete small step (rate 16, overlap
4 at least 1 and below the 160-sample cap, empty buffer, one 8-sample block). -/
theorem buffer_and_phrase_bounds_witness :
    ((processBlock ⟨16, 16, 15 / 1000, 1, 10⟩ false true 0 ⟨[], 0, 0⟩
        (List.replicate 8 1)).1.buffer.length <
      maxBufferSamples ⟨16, 16, 15 / 1000, 1, 10⟩ ∧
      (∀ p, segChunk ⟨16, 16, 15 / 1000, 1, 10⟩ false (List.replicate 8 1) =
          .ok (List.replicate 8 1) →
        (processBlock ⟨16, 16, 15 / 1000, 1, 10⟩ false true 0 ⟨[], 0, 0⟩
          (List.replicate 8 1)).2 = some p →
        p.length < maxBufferSamples ⟨16, 16, 15 / 1000, 1, 10⟩ +
          (List.replicate 8 (1 : ℚ)).length) ∧
      (processTimeout ⟨16, 16, 15 / 1000, 1, 10⟩ true 0 ⟨[], 0, 0⟩).1.buffer.length <
        maxBufferSamples ⟨16, 16, 15 / 1000, 1, 10⟩ ∧
      (∀ p, (processTimeout ⟨16, 16, 15 / 1000, 1, 10⟩ true 0 ⟨[], 0, 0⟩).2 = some p →
        p.length < maxBufferSamples ⟨16, 16, 15 / 1000, 1, 10⟩)) :=
  buffer_and_phrase_bounds ⟨16, 16, 15 / 1000, 1, 10⟩ false true 0 ⟨[], 0, 0⟩
    (List.replicate 8 1) (List.replicate 8 1) (by with_unfolding_all decide)
    (by with_unfolding_all decide) (by with_unfolding_all decide)

end AudioCapture
